import Mathlib

/-!
Verification of the parse-classify-aggregate core of AnalyzeArcGISELBLogs
(src/getlogs.py).  The Python functions `parse_elb_line` and `analyze_files`
are shallowly embedded: Python exceptions are modelled by `Except String`,
Python `None` by `Option`, Python floats by rationals, and Python
dict/Counter objects by insertion-ordered association lists.
-/

set_option maxRecDepth 16384

namespace ElbLogs

/-! ## Counters: Python `dict` / `collections.Counter` as insertion-ordered
association lists.  `cadd c k v` models `c[k] += v` (an existing key keeps
its position, a new key is appended at the end);  `cget` models `c[k]`
(with 0 for a missing key);  `valsum` models `sum(c.values())`. -/

abbrev Counter : Type := List (String × Nat)

def cget : Counter → String → Nat
  | [], _ => 0
  | (k1, v1) :: t, k => (if k1 = k then v1 else 0) + cget t k

def cadd : Counter → String → Nat → Counter
  | [], k, v => [(k, v)]
  | (k1, v1) :: t, k, v => if k1 = k then (k1, v1 + v) :: t else (k1, v1) :: cadd t k v

def valsum (c : Counter) : Nat := (c.map (fun p => p.2)).sum

/-- Modelled from the spec: the source has no merge operation (analyze_files
is a single sequential fold); section 4.4 specifies
`merge(stateA, stateB) -> state'` as the combine of two partial aggregates.
Merging two counters folds every entry of the second into the first. -/
def cmerge (a b : Counter) : Counter :=
  b.foldl (fun acc p => cadd acc p.1 p.2) a

/-! ## Python numeric-string parsing.
`pyInt` models `int(s)` and `pyFloat` models `float(s)` on the success /
failure level needed by the log parser: optional surrounding whitespace, an
optional sign, decimal digits, and for floats an optional fraction and
exponent.  Unicode digits, underscore digit separators and the literals
inf / infinity / nan are not modelled (no log token uses them); float
values are represented exactly as rationals. -/

def pySpace (c : Char) : Bool :=
  c = ' ' || c = '\t' || c = '\n' || c = '\r' || c = '\x0b' || c = '\x0c'

def pyStrip (l : List Char) : List Char :=
  ((l.dropWhile pySpace).reverse.dropWhile pySpace).reverse

/-- Reads an optional leading sign, returning the sign as 1 or -1 and the
remaining characters. -/
def readSign : List Char → (Int × List Char)
  | '+' :: r => (1, r)
  | '-' :: r => (-1, r)
  | l => (1, l)

/-- Consumes a maximal run of decimal digits, returning the value of the
run, the number of digits consumed, and the remaining characters. -/
def digitRun : List Char → Nat → Nat → (Nat × Nat × List Char)
  | [], v, n => (v, n, [])
  | c :: cs, v, n =>
    if c.isDigit then digitRun cs (10 * v + (c.toNat - 48)) (n + 1) else (v, n, c :: cs)

def pyInt (s : String) : Option Int :=
  let l := pyStrip s.toList
  let (sgn, l1) := readSign l
  let (v, n, rest) := digitRun l1 0 0
  if n = 0 ∨ rest ≠ [] then none else some (sgn * (v : Int))

/-- Parses the optional exponent suffix of a float literal, returning the
scale factor `10 ^ exp` as a rational. -/
def expScale : List Char → Option ℚ
  | [] => some 1
  | c :: r =>
    if c = 'e' ∨ c = 'E' then
      let (es, r2) := readSign r
      let (ev, ec, r3) := digitRun r2 0 0
      if ec = 0 ∨ r3 ≠ [] then none
      else some (if es < 0 then 1 / (10 : ℚ) ^ ev else (10 : ℚ) ^ ev)
    else none

def pyFloat (s : String) : Option ℚ :=
  let l := pyStrip s.toList
  let (sgn, l1) := readSign l
  let (iv, ic, r1) := digitRun l1 0 0
  match r1 with
  | [] => if ic = 0 then none else some ((sgn : ℚ) * (iv : ℚ))
  | c :: r2 =>
    if c = '.' then
      let (fv, fc, r3) := digitRun r2 0 0
      if ic = 0 ∧ fc = 0 then none
      else (expScale r3).map
        (fun e => (sgn : ℚ) * ((iv : ℚ) + (fv : ℚ) / (10 : ℚ) ^ fc) * e)
    else
      if ic = 0 then none
      else (expScale r1).map (fun e => (sgn : ℚ) * (iv : ℚ) * e)

/-! ## Tokenizer: `shlex.split(line)`.
CPython shlex in posix mode with `whitespace_split=True`, empty
`commenters`, empty `punctuation_chars`.  The state machine below follows
`shlex.read_token`: outside quotes a backslash escapes the next character;
inside double quotes a backslash escapes only the double quote and the
backslash itself (otherwise it stays in the token); single quotes take
everything literally; quotes are stripped and a quoted empty string yields
an empty token.  End of input inside a quote raises
ValueError("No closing quotation") and end of input right after an escape
character raises ValueError("No escaped character"); the model returns
these as `Except.error`. -/

def squote : Char := Char.ofNat 39

def shWhitespace (c : Char) : Bool :=
  c = ' ' || c = '\t' || c = '\r' || c = '\n'

def isShQuote (c : Char) : Bool := c = '"' || c = squote

inductive ShState where
  | ws : ShState
  | word : ShState
  | inQ (q : Char) : ShState
  | escWord : ShState
  | escQuote (q : Char) : ShState
deriving DecidableEq

/-- One pass of the shlex read loop over the remaining characters.
`tok` is the token under construction, `q` the posix `quoted` flag and
`acc` the emitted tokens in reverse order. -/
def shlexRun : List Char → ShState → List Char → Bool → List String →
    Except String (List String)
  | [], .ws, tok, q, acc =>
    if tok ≠ [] ∨ q then .ok ((String.mk tok :: acc).reverse) else .ok acc.reverse
  | [], .word, tok, q, acc =>
    if tok ≠ [] ∨ q then .ok ((String.mk tok :: acc).reverse) else .ok acc.reverse
  | [], .inQ _, _, _, _ => .error "No closing quotation"
  | [], .escWord, _, _, _ => .error "No escaped character"
  | [], .escQuote _, _, _, _ => .error "No escaped character"
  | c :: cs, .ws, tok, q, acc =>
    if shWhitespace c then
      if tok ≠ [] ∨ q then shlexRun cs .ws [] false (String.mk tok :: acc)
      else shlexRun cs .ws tok q acc
    else if c = '\\' then shlexRun cs .escWord tok q acc
    else if isShQuote c then shlexRun cs (.inQ c) tok q acc
    else shlexRun cs .word (tok ++ [c]) q acc
  | c :: cs, .word, tok, q, acc =>
    if shWhitespace c then
      if tok ≠ [] ∨ q then shlexRun cs .ws [] false (String.mk tok :: acc)
      else shlexRun cs .ws tok q acc
    else if isShQuote c then shlexRun cs (.inQ c) tok q acc
    else if c = '\\' then shlexRun cs .escWord tok q acc
    else shlexRun cs .word (tok ++ [c]) q acc
  | c :: cs, .inQ qc, tok, _, acc =>
    if c = qc then shlexRun cs .word tok true acc
    else if qc = '"' ∧ c = '\\' then shlexRun cs (.escQuote qc) tok true acc
    else shlexRun cs (.inQ qc) (tok ++ [c]) true acc
  | c :: cs, .escWord, tok, q, acc => shlexRun cs .word (tok ++ [c]) q acc
  | c :: cs, .escQuote qc, tok, q, acc =>
    if c ≠ '\\' ∧ c ≠ qc then shlexRun cs (.inQ qc) (tok ++ ['\\', c]) q acc
    else shlexRun cs (.inQ qc) (tok ++ [c]) q acc

/-- Models `shlex.split(line)` as called by `parse_elb_line`. -/
def shlexSplit (s : String) : Except String (List String) :=
  shlexRun s.toList .ws [] false []

/-! ## Regular-expression searches used by `parse_elb_line`.
`searchUrl` models `re.search(r"https?://[^?\x5cs]+", request)` returning
group 0 of the leftmost match, and `searchService` models
`re.search(r"/rest/services/([^/]+/[^/?\x5cs]+)", url)` returning group 1.
The patterns contain no unbounded backtracking: `s?` is resolved by trying
the longer literal first, and the character classes cannot cross their
delimiters, so a leftmost scan with maximal-run capture is exact. -/

/-- Character class `[^?\x5cs]` of the URL pattern (Python `\x5cs` on these
log tokens is ASCII whitespace). -/
def urlChar (c : Char) : Bool := !(c = '?') && !(pySpace c)

/-- Returns the remaining characters when `p` is a prefix of `l`. -/
def dropPre : List Char → List Char → Option (List Char)
  | [], l => some l
  | _, [] => none
  | p :: ps, c :: cs => if c = p then dropPre ps cs else none

/-- Attempts the URL pattern anchored at the current position. -/
def urlAt (l : List Char) : Option (List Char) :=
  match dropPre "https://".toList l with
  | some rest =>
    let run := rest.takeWhile urlChar
    if run = [] then
      match dropPre "http://".toList l with
      | some rest2 =>
        let run2 := rest2.takeWhile urlChar
        if run2 = [] then none else some ("http://".toList ++ run2)
      | none => none
    else some ("https://".toList ++ run)
  | none =>
    match dropPre "http://".toList l with
    | some rest2 =>
      let run2 := rest2.takeWhile urlChar
      if run2 = [] then none else some ("http://".toList ++ run2)
    | none => none

def searchUrlAux : List Char → Option (List Char)
  | [] => none
  | c :: cs =>
    match urlAt (c :: cs) with
    | some m => some m
    | none => searchUrlAux cs

/-- Models `re.search(r"https?://[^?\x5cs]+", request)`, group 0. -/
def searchUrl (s : String) : Option String :=
  (searchUrlAux s.toList).map String.mk

/-- Character class `[^/?\x5cs]` of the service pattern. -/
def svcChar (c : Char) : Bool := !(c = '/') && !(c = '?') && !(pySpace c)

/-- Attempts the service pattern anchored at the current position,
returning the captured `<folder>/<name>` group. -/
def svcAt (l : List Char) : Option (List Char) :=
  match dropPre "/rest/services/".toList l with
  | none => none
  | some rest =>
    let seg1 := rest.takeWhile (fun c => !(c = '/'))
    if seg1 = [] then none
    else
      match rest.dropWhile (fun c => !(c = '/')) with
      | '/' :: r2 =>
        let seg2 := r2.takeWhile svcChar
        if seg2 = [] then none else some (seg1 ++ '/' :: seg2)
      | _ => none

def searchSvcAux : List Char → Option (List Char)
  | [] => none
  | c :: cs =>
    match svcAt (c :: cs) with
    | some m => some m
    | none => searchSvcAux cs

/-- Models `re.search(r"/rest/services/([^/]+/[^/?\x5cs]+)", url)`,
group 1. -/
def searchService (s : String) : Option String :=
  (searchSvcAux s.toList).map String.mk

/-! ## LogRecord: the dict returned by `parse_elb_line` on success. -/

structure LogRecord where
  timestamp : String
  client : String
  request_processing_time : Option ℚ
  backend_processing_time : Option ℚ
  response_processing_time : Option ℚ
  elb_status : String
  backend_status : String
  received_bytes : Int
  sent_bytes : Int
  request : String
  mapservice : String
deriving DecidableEq

/-- Models `line.startswith("#")`: true when the first character is `#`. -/
def startsWithHash (line : String) : Bool :=
  match line.toList with
  | c :: _ => c = '#'
  | [] => false

/-- Models `parse_elb_line(line)` from src/getlogs.py.  A Python exception
is modelled as `Except.error`: `shlex.split` raises ValueError on a line
with an unclosed quote or a trailing escape character, and the final
`return` raises UnboundLocalError when the URL search on the request field
found no match, because `mapservice` is assigned only inside the
`if match:` branch.  `None` returns are `Except.ok none`.  Note that on the
success path the `request` entry of the returned dict is the re-bound
variable holding only the matched URL, not the original request token. -/
def parse_elb_line (line : String) : Except String (Option LogRecord) :=
  if line = "" || startsWithHash line then .ok none
  else
    match shlexSplit line with
    | .error e => .error e
    | .ok parts =>
      if 12 ≤ parts.length then
        let timestamp := parts.getD 1 ""
        let client := if 2 < parts.length then parts.getD 2 "" else ""
        let req_proc := pyFloat (parts.getD 4 "")
        let backend_proc := pyFloat (parts.getD 5 "")
        let resp_proc := pyFloat (parts.getD 6 "")
        let elb_status := parts.getD 7 ""
        let backend_status := parts.getD 8 ""
        let received := (pyInt (parts.getD 9 "")).getD 0
        let sent := (pyInt (parts.getD 10 "")).getD 0
        let request0 := if 12 < parts.length then parts.getD 12 "" else ""
        match searchUrl request0 with
        | none => .error "UnboundLocalError: mapservice"
        | some url =>
          let mapservice := (searchService url).getD ""
          .ok (some
            { timestamp := timestamp
              client := client
              request_processing_time := req_proc
              backend_processing_time := backend_proc
              response_processing_time := resp_proc
              elb_status := elb_status
              backend_status := backend_status
              received_bytes := received
              sent_bytes := sent
              request := url
              mapservice := mapservice })
      else .ok none

/-! ## Aggregator: the accumulation loop of `analyze_files`. -/

/-- Models `status = parsed.get("elb_status") or parsed.get("backend_status")`.
Both fields are strings, so the Python `or` picks the backend status exactly
when the elb status is the empty string (the `if status is not None` guard in
the source can therefore never fail). -/
def statusOf (r : LogRecord) : String :=
  if r.elb_status ≠ "" then r.elb_status else r.backend_status

/-- Models the status bucket of `analyze_files`: `int(status)` succeeding
with value `sc` gives the bucket string of `sc // 100` followed by `xx`
(Python `//` is floor division), and a failing parse falls back to
`str(status)`, the literal status text. -/
def statusBucket (r : LogRecord) : String :=
  match pyInt (statusOf r) with
  | some sc => toString (Int.fdiv sc 100) ++ "xx"
  | none => statusOf r

/-- Models `client.split(":")[0]`: the part of the client field before the
first colon (the whole field when it has no colon). -/
def clientKey (s : String) : String :=
  String.mk (s.toList.takeWhile (fun c => c ≠ ':'))

/-- Worker for `pyWords`: `cur` holds the current word reversed. -/
def wordsAux : List Char → List Char → List String
  | [], cur => if cur = [] then [] else [String.mk cur.reverse]
  | c :: cs, cur =>
    if pySpace c then
      if cur = [] then wordsAux cs []
      else String.mk cur.reverse :: wordsAux cs []
    else wordsAux cs (c :: cur)

/-- Models the Python no-argument `str.split()`: split on whitespace runs,
dropping empty pieces. -/
def pyWords (s : String) : List String := wordsAux s.toList []

/-- Models `[t for t in times if isinstance(t, (int, float))]`: the present
processing-time components of a record, in field order. -/
def nnTimes (r : LogRecord) : List ℚ :=
  [r.request_processing_time, r.backend_processing_time,
   r.response_processing_time].filterMap id

/-- Sum of the present processing-time components, as added into
`total_req_time` by `analyze_files`. -/
def recSum (r : LogRecord) : ℚ := (nnTimes r).sum

/-- RunningAggregate: the loop accumulators of `analyze_files`
(`total`, `total_received`, `total_sent`, `status_counter`,
`client_counter`, `url_counter`, `total_req_time`, `req_time_count`).
The `all_lines` list, which only feeds the excluded record-table export and
is not part of the RunningAggregate of the spec, is omitted. -/
structure AggState where
  total : Nat
  totalReceived : Int
  totalSent : Int
  status : Counter
  clients : Counter
  urls : Counter
  timeSum : ℚ
  timeCount : Nat
deriving DecidableEq

def initState : AggState :=
  { total := 0, totalReceived := 0, totalSent := 0, status := [],
    clients := [], urls := [], timeSum := 0, timeCount := 0 }

/-- One iteration of the `analyze_files` loop body on a parsed record.
The Python statements update disjoint accumulators, so they are written as
one simultaneous record update: `total += 1`, the byte totals, the status
bucket count, the client count guarded by `if client:`, the URL count
guarded by `if req:` and `if len(parts) >= 2:` (on the second
whitespace-separated piece of the request field), and the latency
accumulators guarded by `if times:`. -/
def foldRecord (s : AggState) (r : LogRecord) : AggState :=
  { total := s.total + 1
    totalReceived := s.totalReceived + r.received_bytes
    totalSent := s.totalSent + r.sent_bytes
    status := cadd s.status (statusBucket r) 1
    clients :=
      if r.client = "" then s.clients
      else cadd s.clients (clientKey r.client) 1
    urls :=
      if r.request ≠ "" ∧ 2 ≤ (pyWords r.request).length
      then cadd s.urls ((pyWords r.request).getD 1 "") 1
      else s.urls
    timeSum := if nnTimes r = [] then s.timeSum else s.timeSum + recSum r
    timeCount := if nnTimes r = [] then s.timeCount else s.timeCount + 1 }

/-- Folding a whole record sequence, starting from the empty aggregate. -/
def foldAll (rs : List LogRecord) : AggState :=
  List.foldl foldRecord initState rs

/-- Modelled from the spec: the source has no merge operation
(`analyze_files` folds all files sequentially into one accumulator);
section 4.4 specifies `merge(stateA, stateB) -> state'` combining two
partial aggregates, so merge adds every scalar accumulator and folds the
entries of the second frequency table into the first. -/
def mergeAgg (a b : AggState) : AggState :=
  { total := a.total + b.total
    totalReceived := a.totalReceived + b.totalReceived
    totalSent := a.totalSent + b.totalSent
    status := cmerge a.status b.status
    clients := cmerge a.clients b.clients
    urls := cmerge a.urls b.urls
    timeSum := a.timeSum + b.timeSum
    timeCount := a.timeCount + b.timeCount }

/-- Python `==` on the result dicts compares dict entries regardless of
insertion order, so two aggregates are equal when every scalar accumulator
agrees and every key has the same count in each frequency table. -/
def AggEquiv (a b : AggState) : Prop :=
  a.total = b.total ∧ a.totalReceived = b.totalReceived ∧
  a.totalSent = b.totalSent ∧
  (∀ k, cget a.status k = cget b.status k) ∧
  (∀ k, cget a.clients k = cget b.clients k) ∧
  (∀ k, cget a.urls k = cget b.urls k) ∧
  a.timeSum = b.timeSum ∧ a.timeCount = b.timeCount

/-- Models `(total_req_time / req_time_count) if req_time_count else None`
in the result dict of `analyze_files`. -/
def avg_processing_time (s : AggState) : Option ℚ :=
  if s.timeCount ≠ 0 then some (s.timeSum / (s.timeCount : ℚ)) else none

/-- Stable descending insertion used to model `Counter.most_common`:
a later entry is placed after every entry of equal or larger count. -/
def insStable (acc : Counter) (x : String × Nat) : Counter :=
  match acc with
  | [] => [x]
  | y :: ys => if y.2 < x.2 then x :: y :: ys else y :: insStable ys x

/-- Models `Counter.most_common(n)`: entries sorted by count descending,
ties kept in first-observed insertion order, truncated to `n`. -/
def most_common (n : Nat) (c : Counter) : Counter :=
  (c.foldl insStable []).take n

/-! ## Definitions written from the words of the claims (for comparison
against the code-derived definitions above). -/

/-- Written from the words of claim C4: first attempt an integer parse of
the elb status, and only when that fails an integer parse of the backend
status; on success the bucket is the first digit of the parsed value
followed by `xx`; when both parses fail, the bucket is the literal status
text. -/
def specBucketC4 (r : LogRecord) : String :=
  match pyInt r.elb_status with
  | some sc => (((toString sc).toList.filter Char.isDigit).headD '0').toString ++ "xx"
  | none =>
    match pyInt r.backend_status with
    | some sc => (((toString sc).toList.filter Char.isDigit).headD '0').toString ++ "xx"
    | none => statusOf r

/-- Written from the words of the amended claim C4: the status text is the
elb status unless it is empty, in which case it is the backend status; a
successful integer parse of that one text gives the bucket formed from the
floor quotient of the value by 100 followed by `xx`, and a failed parse
gives the status text itself as the bucket. -/
def bucketAmendedC4 (r : LogRecord) : String :=
  let st := if r.elb_status = "" then r.backend_status else r.elb_status
  match pyInt st with
  | some sc => toString (Int.fdiv sc 100) ++ "xx"
  | none => st

/-! ## Concrete fixtures used by the claim theorems. -/

/-- A well-formed 13-token ELB line whose quoted request field holds a
method + URL + protocol triple with a `/rest/services/` path. -/
def lineC1good : String :=
  "h2 2026-02-01T19:40:27Z 88.89.241.253:54514 10.2.64.202:6443 0.029 0.001 0.000 200 200 57 4186 \"-\" \"GET https://geodata.bymoslo.no:443/arcgis/rest/services/geodata/Parkering/MapServer/3?f=json HTTP/2.0\""

/-- A 13-token line whose request field holds an absolute URL that matches
none of the service patterns. -/
def lineC1plain : String :=
  "h2 2026-02-01T19:40:27Z 88.89.241.253:54514 10.2.64.202:6443 0.029 0.001 0.000 200 200 57 4186 \"-\" \"GET https://example.org/index.html HTTP/1.1\""

/-- A 13-token line whose request field is the `- - -` triple an ELB
writes for a failed connection: no absolute URL can be extracted. -/
def lineC1bad : String :=
  "h2 2026-02-01T19:40:28Z 88.89.241.253:54514 - -1 -1 -1 504 - 0 0 \"-\" \"- - -\""

/-- A line with an unclosed double quote. -/
def lineC2 : String := "h2 ts 1.2.3.4:5 - 0.1 0.2 0.3 200 200 0 0 \"broken"

/-- A 13-token line with a classifiable request field, used to trace one
record end to end through parse and fold. -/
def lineC3 : String :=
  "h2 2026-02-01T00:00:00Z 5.6.7.8:1234 10.0.0.1:80 0.1 0.2 0.3 200 200 57 4186 \"-\" \"GET https://h/rest/services/geodata/Parkering/MapServer/3?f=json HTTP/2.0\""

/-- A record whose elb status is the non-numeric `-` while the backend
status is numeric. -/
def recC4 : LogRecord :=
  { timestamp := "2026-02-01T00:00:00Z", client := "1.2.3.4:5"
    request_processing_time := some (1 / 10), backend_processing_time := none
    response_processing_time := none, elb_status := "-", backend_status := "200"
    received_bytes := 0, sent_bytes := 0, request := "https://h/a"
    mapservice := "" }

/-- The record above with both status fields replaced. -/
def recC4status (e b : String) : LogRecord :=
  { recC4 with elb_status := e, backend_status := b }

/-- A record with two present processing-time components. -/
def recC7 : LogRecord :=
  { timestamp := "t", client := "9.9.9.9:1"
    request_processing_time := some (1 / 10)
    backend_processing_time := some (1 / 5)
    response_processing_time := none, elb_status := "200", backend_status := "200"
    received_bytes := 1, sent_bytes := 2, request := "https://h/b"
    mapservice := "" }

/-- A 12-token line whose fifth token fails the float parse; having only 12
tokens, its request field defaults to the empty string. -/
def lineC8 : String := "x ts 1.2.3.4:5 tgt abc 0.2 0.3 200 200 10 20 req"

/-- A record whose client field is the empty string (producible from a
line whose third token is a quoted empty string). -/
def recC10 : LogRecord :=
  { timestamp := "t", client := ""
    request_processing_time := none, backend_processing_time := none
    response_processing_time := none, elb_status := "304", backend_status := "-"
    received_bytes := 0, sent_bytes := 0, request := "https://h/c"
    mapservice := "" }

/-! ## Counter lemmas. -/

theorem cget_cadd (c : Counter) (k k2 : String) (v : Nat) :
    cget (cadd c k v) k2 = cget c k2 + (if k = k2 then v else 0) := by
  induction c with
  | nil =>
    by_cases h : k = k2 <;> simp [cadd, cget, h]
  | cons p t ih =>
    obtain ⟨k1, v1⟩ := p
    by_cases h : k1 = k
    · by_cases h2 : k1 = k2
      · have hk : k = k2 := by rw [← h, h2]
        simp only [cadd, if_pos h, cget, if_pos h2, if_pos hk]
        omega
      · have hk : ¬(k = k2) := by rw [← h]; exact h2
        simp only [cadd, if_pos h, cget, if_neg h2, if_neg hk]
        omega
    · by_cases h2 : k1 = k2
      · simp only [cadd, if_neg h, cget, if_pos h2, ih]
        omega
      · simp only [cadd, if_neg h, cget, if_neg h2, ih]
        omega

theorem valsum_cadd (c : Counter) (k : String) (v : Nat) :
    valsum (cadd c k v) = valsum c + v := by
  induction c with
  | nil => simp [cadd, valsum]
  | cons p t ih =>
    obtain ⟨k1, v1⟩ := p
    by_cases h : k1 = k <;> simp [cadd, valsum, h] at * <;> omega

theorem cget_cmerge (b a : Counter) (k : String) :
    cget (cmerge a b) k = cget a k + cget b k := by
  induction b generalizing a with
  | nil => simp [cmerge, cget]
  | cons p t ih =>
    obtain ⟨k1, v1⟩ := p
    have step : cmerge a ((k1, v1) :: t) = cmerge (cadd a k1 v1) t := rfl
    rw [step, ih, cget_cadd]
    by_cases h : k1 = k <;> simp [cget, h] <;> omega

/-! ## Fold characterizations: each accumulator of the `analyze_files`
loop as a closed function of the record sequence. -/

theorem foldl_total (rs : List LogRecord) : ∀ s : AggState,
    (List.foldl foldRecord s rs).total = s.total + rs.length := by
  induction rs with
  | nil => intro s; simp
  | cons r t ih => intro s; simp [List.foldl_cons, ih, foldRecord]; omega

theorem foldl_received (rs : List LogRecord) : ∀ s : AggState,
    (List.foldl foldRecord s rs).totalReceived
      = s.totalReceived + (rs.map (fun r => r.received_bytes)).sum := by
  induction rs with
  | nil => intro s; simp
  | cons r t ih => intro s; simp [List.foldl_cons, ih, foldRecord]; omega

theorem foldl_sent (rs : List LogRecord) : ∀ s : AggState,
    (List.foldl foldRecord s rs).totalSent
      = s.totalSent + (rs.map (fun r => r.sent_bytes)).sum := by
  induction rs with
  | nil => intro s; simp
  | cons r t ih => intro s; simp [List.foldl_cons, ih, foldRecord]; omega

theorem foldl_status_cget (rs : List LogRecord) : ∀ (s : AggState) (k : String),
    cget (List.foldl foldRecord s rs).status k
      = cget s.status k + List.countP (fun r => decide (statusBucket r = k)) rs := by
  induction rs with
  | nil => intro s k; simp
  | cons r t ih =>
    intro s k
    simp only [List.foldl_cons, ih, foldRecord, cget_cadd, List.countP_cons]
    by_cases h : statusBucket r = k <;> simp [h] <;> omega

theorem foldl_status_valsum (rs : List LogRecord) : ∀ s : AggState,
    valsum (List.foldl foldRecord s rs).status = valsum s.status + rs.length := by
  induction rs with
  | nil => intro s; simp
  | cons r t ih =>
    intro s
    simp only [List.foldl_cons, ih, foldRecord, valsum_cadd, List.length_cons]
    omega

theorem foldl_clients_cget (rs : List LogRecord) : ∀ (s : AggState) (k : String),
    cget (List.foldl foldRecord s rs).clients k
      = cget s.clients k
        + List.countP (fun r => decide (r.client ≠ "" ∧ clientKey r.client = k)) rs := by
  induction rs with
  | nil => intro s k; simp
  | cons r t ih =>
    intro s k
    simp only [List.foldl_cons, ih, List.countP_cons]
    by_cases hc : r.client = ""
    · simp [foldRecord, hc]
    · by_cases hk : clientKey r.client = k <;>
        simp [foldRecord, hc, hk, cget_cadd] <;> omega

theorem foldl_clients_valsum (rs : List LogRecord) : ∀ s : AggState,
    valsum (List.foldl foldRecord s rs).clients
      = valsum s.clients + List.countP (fun r => decide (r.client ≠ "")) rs := by
  induction rs with
  | nil => intro s; simp
  | cons r t ih =>
    intro s
    simp only [List.foldl_cons, ih, List.countP_cons]
    by_cases hc : r.client = "" <;> simp [foldRecord, hc, valsum_cadd] <;> omega

theorem foldl_urls_cget (rs : List LogRecord) : ∀ (s : AggState) (k : String),
    cget (List.foldl foldRecord s rs).urls k
      = cget s.urls k
        + List.countP (fun r => decide ((r.request ≠ "" ∧ 2 ≤ (pyWords r.request).length)
            ∧ (pyWords r.request).getD 1 "" = k)) rs := by
  induction rs with
  | nil => intro s k; simp
  | cons r t ih =>
    intro s k
    simp only [List.foldl_cons, ih, List.countP_cons]
    by_cases hu : r.request ≠ "" ∧ 2 ≤ (pyWords r.request).length
    · by_cases hk : (pyWords r.request).getD 1 "" = k <;>
        simp [foldRecord, hu, hk, cget_cadd] <;> omega
    · simp [foldRecord, hu]

theorem foldl_timeSum (rs : List LogRecord) : ∀ s : AggState,
    (List.foldl foldRecord s rs).timeSum
      = s.timeSum + ((rs.filter (fun r => !(nnTimes r).isEmpty)).map recSum).sum := by
  induction rs with
  | nil => intro s; simp
  | cons r t ih =>
    intro s
    simp only [List.foldl_cons, ih, List.filter_cons]
    by_cases h : nnTimes r = []
    · simp [foldRecord, h]
    · have hne : ((nnTimes r).isEmpty = false) := by
        cases hnn : nnTimes r with
        | nil => exact absurd hnn h
        | cons a l => rfl
      simp [foldRecord, h, hne]
      ring

theorem foldl_timeCount (rs : List LogRecord) : ∀ s : AggState,
    (List.foldl foldRecord s rs).timeCount
      = s.timeCount + List.countP (fun r => !(nnTimes r).isEmpty) rs := by
  induction rs with
  | nil => intro s; simp
  | cons r t ih =>
    intro s
    simp only [List.foldl_cons, ih, List.countP_cons]
    by_cases h : nnTimes r = []
    · simp [foldRecord, h]
    · have hne : ((nnTimes r).isEmpty = false) := by
        cases hnn : nnTimes r with
        | nil => exact absurd hnn h
        | cons a l => rfl
      simp [foldRecord, h, hne]
      omega

/-! ## Claim theorems. -/

/-- Claim C1 (code bug): classification is not total.  On a line whose
request field does contain a URL with a `/rest/services/` path the captured
`geodata/Parkering` pair is returned, and on a URL matching no pattern the
service name is the empty string; but on a ≥12-token line whose request
field contains no absolute URL at all (such as the `- - -` request of a
failed connection) `parse_elb_line` raises UnboundLocalError instead of
producing a record with an empty service name, because `mapservice` is
assigned only inside the `if match:` branch. -/
theorem claim_C1_code_bug :
    (parse_elb_line lineC1good).map (fun o => o.map (fun r => r.mapservice))
        = .ok (some "geodata/Parkering")
  ∧ (parse_elb_line lineC1plain).map (fun o => o.map (fun r => r.mapservice))
        = .ok (some "")
  ∧ parse_elb_line lineC1bad = .error "UnboundLocalError: mapservice" :=
  ⟨rfl, rfl, rfl⟩

/-- Claim C2 (code bug): tokenization of a line with an unbalanced double
quote raises.  `shlex.split` raises ValueError("No closing quotation") and
`parse_elb_line` calls it unguarded, so the exception propagates and
crashes the pipeline instead of producing a best-effort split or a skip
signal. -/
theorem claim_C2_code_bug :
    shlexSplit lineC2 = .error "No closing quotation"
  ∧ parse_elb_line lineC2 = .error "No closing quotation" :=
  ⟨rfl, rfl⟩

/-- Claim C3 (code bug): the URL frequency table never increases.
`parse_elb_line` overwrites the `request` entry with the bare matched URL
(a single whitespace-free token), while the fold in `analyze_files` only
counts a URL when the stored request field still splits into at least two
whitespace-separated pieces; so for the record parsed from a well-formed
line with a method + URL + protocol triple, the split has length 1, the
URL counter stays empty, and the top-URL extraction is empty. -/
theorem claim_C3_code_bug :
    (parse_elb_line lineC3).map (fun o => o.map (fun r =>
        (r.request, (pyWords r.request).length,
         (foldRecord initState r).urls, most_common 10 (foldRecord initState r).urls)))
      = .ok (some ("https://h/rest/services/geodata/Parkering/MapServer/3", 1,
          ([] : Counter), ([] : Counter))) :=
  rfl

/-- Claim C4 counterexample: for a folded record with elb status `-` and
backend status `200`, the claimed rule (integer-parse the elb status,
fall back to the backend status when that parse fails) yields bucket
`2xx`, but the code picks the backend status only when the elb status is
the empty string, so it buckets this record under the literal `-`. -/
theorem claim_C4_counterexample :
    statusBucket recC4 = "-" ∧ specBucketC4 recC4 = "2xx"
  ∧ cget (foldRecord initState recC4).status "-" = 1
  ∧ cget (foldRecord initState recC4).status "2xx" = 0 :=
  ⟨rfl, rfl, rfl, rfl⟩

/-- Claim C4 (amended): for every folded record the status text is the elb
status when it is non-empty and the backend status otherwise; a successful
integer parse of that one text gives the bucket formed from the floor
quotient by 100 followed by `xx` (for the usual three-digit statuses this
is the first digit: 200 to 2xx, 504 to 5xx, 301 to 3xx), and a failed
parse gives the literal status text as the bucket, never a numeric
exception. -/
theorem claim_C4_amended :
    (∀ r : LogRecord, statusBucket r = bucketAmendedC4 r)
  ∧ (∀ (s : AggState) (r : LogRecord),
      (foldRecord s r).status = cadd s.status (statusBucket r) 1)
  ∧ statusBucket (recC4status "200" "x") = "2xx"
  ∧ statusBucket (recC4status "504" "x") = "5xx"
  ∧ statusBucket (recC4status "301" "x") = "3xx"
  ∧ statusBucket (recC4status "-" "-") = "-" := by
  refine ⟨?_, fun s r => rfl, rfl, rfl, rfl, rfl⟩
  intro r
  unfold statusBucket bucketAmendedC4 statusOf
  by_cases h : r.elb_status = "" <;> simp [h]

/-- Claim C5: with the merge of partial aggregates modelled from the spec
(the source itself has no merge), merging the folds of two record
sequences agrees with folding their concatenation, and merge is
associative and commutative; equality is the order-insensitive equality
Python `==` uses on the result dictionaries. -/
theorem claim_C5_merge :
    (∀ A B : List LogRecord,
      AggEquiv (mergeAgg (foldAll A) (foldAll B)) (foldAll (A ++ B)))
  ∧ (∀ a b c : AggState,
      AggEquiv (mergeAgg (mergeAgg a b) c) (mergeAgg a (mergeAgg b c)))
  ∧ (∀ a b : AggState, AggEquiv (mergeAgg a b) (mergeAgg b a)) := by
  refine ⟨fun A B => ?_, fun a b c => ?_, fun a b => ?_⟩
  · unfold AggEquiv foldAll
    refine ⟨?_, ?_, ?_, fun k => ?_, fun k => ?_, fun k => ?_, ?_, ?_⟩
    · simp [mergeAgg, foldl_total, List.length_append, initState]
    · simp [mergeAgg, foldl_received, initState]
    · simp [mergeAgg, foldl_sent, initState]
    · simp [mergeAgg, cget_cmerge, foldl_status_cget, List.countP_append, initState, cget]
    · simp [mergeAgg, cget_cmerge, foldl_clients_cget, List.countP_append, initState, cget]
    · simp [mergeAgg, cget_cmerge, foldl_urls_cget, List.countP_append, initState, cget]
    · simp [mergeAgg, foldl_timeSum, initState, List.filter_append, List.map_append,
        List.sum_append]
    · simp [mergeAgg, foldl_timeCount, List.countP_append, initState]
  · unfold AggEquiv
    refine ⟨?_, ?_, ?_, fun k => ?_, fun k => ?_, fun k => ?_, ?_, ?_⟩ <;>
      simp [mergeAgg, cget_cmerge] <;> first | omega | ring
  · unfold AggEquiv
    refine ⟨?_, ?_, ?_, fun k => ?_, fun k => ?_, fun k => ?_, ?_, ?_⟩ <;>
      simp [mergeAgg, cget_cmerge] <;> first | omega | ring

/-- Claim C6: after folding any record sequence, the values of the status
histogram sum to the total record count (every record increments exactly
one bucket, since both status fields are strings and the
`if status is not None` guard in the source never fails). -/
theorem claim_C6_invariant :
    ∀ rs : List LogRecord, valsum (foldAll rs).status = (foldAll rs).total := by
  intro rs
  unfold foldAll
  rw [foldl_status_valsum, foldl_total]
  rfl

/-- Claim C7: the mean latency of the finalized result is `None` exactly
when no folded record has a present processing-time component, and is
otherwise the arithmetic mean, over the records having at least one
present component, of the sum of each such record's present components. -/
theorem claim_C7_mean :
    ∀ rs : List LogRecord,
    ((rs.filter (fun r => !(nnTimes r).isEmpty)) = [] →
        avg_processing_time (foldAll rs) = none)
  ∧ ((rs.filter (fun r => !(nnTimes r).isEmpty)) ≠ [] →
        avg_processing_time (foldAll rs)
          = some (((rs.filter (fun r => !(nnTimes r).isEmpty)).map recSum).sum
              / ((rs.filter (fun r => !(nnTimes r).isEmpty)).length : ℚ))) := by
  intro rs
  have hc : (foldAll rs).timeCount
      = (rs.filter (fun r => !(nnTimes r).isEmpty)).length := by
    unfold foldAll
    rw [foldl_timeCount]
    simp [initState, List.countP_eq_length_filter]
  have hs : (foldAll rs).timeSum
      = ((rs.filter (fun r => !(nnTimes r).isEmpty)).map recSum).sum := by
    unfold foldAll
    rw [foldl_timeSum]
    simp [initState]
  constructor
  · intro h
    unfold avg_processing_time
    rw [hc, h]
    simp
  · intro h
    have hlen : (rs.filter (fun r => !(nnTimes r).isEmpty)).length ≠ 0 := by
      simpa [List.length_eq_zero] using h
    unfold avg_processing_time
    rw [hc, hs, if_pos hlen]

/-- Claim C7 witness: the empty sequence gives a `None` mean, and a
one-record sequence with present components gives the mean of that record. -/
theorem claim_C7_witness :
    avg_processing_time (foldAll ([] : List LogRecord)) = none
  ∧ avg_processing_time (foldAll [recC7])
      = some ((([recC7].filter (fun r => !(nnTimes r).isEmpty)).map recSum).sum
          / (([recC7].filter (fun r => !(nnTimes r).isEmpty)).length : ℚ)) :=
  ⟨(claim_C7_mean []).1 rfl, (claim_C7_mean [recC7]).2 (by decide)⟩

/-- Claim C8 (code bug): one bad numeric field does not by itself discard
a 12-token record, but the record is not produced either: with exactly 12
tokens the request field defaults to the empty string, the URL search
fails, and `parse_elb_line` raises UnboundLocalError instead of returning
the record with the failed float field set to null. -/
theorem claim_C8_code_bug :
    pyFloat "abc" = none
  ∧ (shlexSplit lineC8).map List.length = .ok 12
  ∧ parse_elb_line lineC8 = .error "UnboundLocalError: mapservice" :=
  ⟨rfl, rfl, rfl⟩

/-- Claim C9: every line that is empty, starts with `#`, or tokenizes to
fewer than 12 tokens yields no record, as a skip rather than an error. -/
theorem claim_C9_skip :
    ∀ line : String,
    (line = "" ∨ startsWithHash line = true ∨
      ∃ ts, shlexSplit line = .ok ts ∧ ts.length < 12) →
    parse_elb_line line = .ok none := by
  intro line h
  rcases h with h | h | ⟨ts, hts, hlen⟩
  · simp [parse_elb_line, h]
  · simp [parse_elb_line, h]
  · by_cases he : (line = "" || startsWithHash line) = true
    · simp [parse_elb_line, he]
    · have he2 : (line = "" || startsWithHash line) = false := by
        cases hb : (line = "" || startsWithHash line)
        · rfl
        · exact absurd hb he
      simp only [parse_elb_line, he2, Bool.false_eq_true, if_false, hts]
      rw [if_neg (by omega)]

/-- Claim C9 witness: a three-token line is skipped. -/
theorem claim_C9_witness : parse_elb_line "a b c" = .ok none :=
  claim_C9_skip "a b c" (Or.inr (Or.inr ⟨["a", "b", "c"], rfl, by decide⟩))

/-- Claim C10: the client frequency table is keyed by the part of the
client field before the first colon, a record with an empty client field
is not counted, the sum of the client counts equals the number of records
with a non-empty client field, and that sum is strictly below the total
for a sequence containing an empty-client record. -/
theorem claim_C10_clients :
    (∀ (s : AggState) (r : LogRecord),
        (foldRecord s r).clients
          = if r.client = "" then s.clients
            else cadd s.clients (clientKey r.client) 1)
  ∧ (∀ rs : List LogRecord,
        valsum (foldAll rs).clients
          = List.countP (fun r => decide (r.client ≠ "")) rs)
  ∧ clientKey "88.89.241.253:54514" = "88.89.241.253"
  ∧ clientKey "10.0.0.1" = "10.0.0.1"
  ∧ valsum (foldAll [recC10]).clients < (foldAll [recC10]).total := by
  refine ⟨fun s r => rfl, fun rs => ?_, by decide, by decide, by decide⟩
  unfold foldAll
  rw [foldl_clients_valsum]
  simp [initState, valsum]

end ElbLogs
